import Mathlib

/-!
Verification development for the autonomous paint agent script
(autonomous_paint_agent.py). The definitions below are a shallow embedding
of the directive parser, argument mapper and main interaction loop of the
script; the theorems settle the specification claims about them.
-/

set_option maxRecDepth 4000

namespace PaintAgent

/-! ## Python string primitives

The script manipulates Python strings; we model them over the character
list of a Lean String. -/

/-- The whitespace characters stripped by the Python str.strip method
(space, tab, newline, carriage return, vertical tab, form feed; the
rarely used extra unicode whitespace is not modelled). -/
def isPySpace (c : Char) : Bool :=
  c = ' ' || c = '\t' || c = '\n' || c = '\x0d' || c = '\x0b' || c = '\x0c'

/-- Python str.strip on a character list: drop whitespace from both ends. -/
def pyStripList (l : List Char) : List Char :=
  ((l.dropWhile isPySpace).reverse.dropWhile isPySpace).reverse

/-- Python str.strip. -/
def pyStrip (s : String) : String := String.mk (pyStripList s.data)

/-- Whether the first list is an initial segment of the second
(Python str.startswith on character lists). -/
def chListStarts : List Char → List Char → Bool
  | [], _ => true
  | _ :: _, [] => false
  | p :: ps, c :: cs => p = c && chListStarts ps cs

/-- Python s.startswith(marker). -/
def strStarts (s marker : String) : Bool := chListStarts marker.data s.data

/-- Everything after the first colon: models the second component of
Python s.split(":", 1) when a colon is present (the script only uses it
on text known to contain a colon, via its marker). -/
def afterFirstColon : List Char → List Char
  | [] => []
  | c :: cs => if c = ':' then cs else afterFirstColon cs

/-- Python s.split("|"): split on every pipe, keeping empty fields; the
result is always non-empty (the empty string splits to one empty field). -/
def splitPipe : List Char → List (List Char)
  | [] => [[]]
  | c :: cs =>
    if c = '|' then [] :: splitPipe cs
    else
      match splitPipe cs with
      | [] => [[c]]
      | f :: rest => (c :: f) :: rest

/-- Helper for the Python int() model: read a digit sequence (single
underscores allowed between digits, as Python permits) into a value. -/
def pyDigitsGo : List Char → Nat → Option Nat
  | [], acc => some acc
  | c :: cs, acc =>
    if c.isDigit then pyDigitsGo cs (acc * 10 + (c.toNat - 48))
    else if c = '_' then
      match cs with
      | [] => none
      | d :: _ => if d.isDigit then pyDigitsGo cs acc else none
    else none

/-- A digit sequence must begin with a digit and be non-empty. -/
def pyDigitsVal : List Char → Option Nat
  | [] => none
  | c :: cs => if c.isDigit then pyDigitsGo (c :: cs) 0 else none

/-- Python int(s) on a decimal string: strip whitespace, optional sign,
then a digit sequence; None models the ValueError raised otherwise. -/
def pyInt (s : String) : Option Int :=
  match pyStripList s.data with
  | '+' :: rest => (pyDigitsVal rest).map (fun n => (n : Int))
  | '-' :: rest => (pyDigitsVal rest).map (fun n => -(n : Int))
  | l => (pyDigitsVal l).map (fun n => (n : Int))

/-! ## Directive parser

Models lines 249 to 253 and 358 to 365 of autonomous_paint_agent.py:
classification of the stripped model response. -/

/-- One parsed model response: a tool call, a final answer, or anything
else (malformed). -/
inductive Directive where
  | call (func_name : String) (params : List String)
  | final (text : String)
  | malformed (text : String)
deriving DecidableEq, Repr

/-- The directive parser. On a FUNCTION_CALL line: split once on the
first colon, split the payload on pipes, strip each field; the first
field is the function name, the rest are the positional parameters. -/
def parseDirective (response_text : String) : Directive :=
  if strStarts response_text "FUNCTION_CALL:" then
    match (splitPipe (afterFirstColon response_text.data)).map
        (fun p => String.mk (pyStripList p)) with
    | [] => Directive.malformed response_text
    | func_name :: params => Directive.call func_name params
  else if strStarts response_text "FINAL_ANSWER:" then
    Directive.final response_text
  else
    Directive.malformed response_text

/-! ## Session configuration and argument values -/

/-- The two interactive inputs collected once before the loop (lines 219
to 231): the input string (defaulted to Hello World when empty) and the
recipient email address. -/
structure Config where
  user_input : String
  recipient_email : String

/-- A named argument value sent to the tool provider: the script passes
strings for text fields and Python ints for the rectangle coordinates. -/
inductive ArgVal where
  | str (s : String)
  | int (n : Int)
deriving DecidableEq, Repr

/-- The named-argument mapping built for one call: an insertion-ordered
dictionary, modelled as an association list. -/
abbrev Arguments := List (String × ArgVal)

/-! ## Filesystem model

The attachment-path resolution (lines 296 to 311) probes the filesystem
with os.path.exists; we model the filesystem as an oracle. -/

/-- Filesystem oracle for the mapping step. The pathExists_empty field
records that the Python os.path.exists function returns False on the
empty path; cwd stands for the working directory used by os.path.abspath. -/
structure Fs where
  pathExists : String → Bool
  cwd : String
  pathExists_empty : pathExists "" = false

/-- os.path.join for one component, posix flavoured: an absolute second
component replaces the first. -/
def ospJoin (a b : String) : String :=
  if strStarts b "/" then b else a ++ "/" ++ b

/-- os.path.abspath, modelled without normalisation: an absolute path is
kept, a relative one is joined onto the working directory. -/
def abspath (fs : Fs) (p : String) : String :=
  if strStarts p "/" then p else fs.cwd ++ "/" ++ p

/-- Attachment filename resolution (lines 296 to 311): probe the current
directory, then Assignment, then Session4/Assignment, and otherwise fall
back to the absolute path of the filename. -/
def resolveAttachment (fs : Fs) (filename : String) : String :=
  if fs.pathExists filename then filename
  else
    if fs.pathExists (ospJoin "Assignment" filename) then
      ospJoin "Assignment" filename
    else
      if fs.pathExists (ospJoin (ospJoin "Session4" "Assignment") filename) then
        ospJoin (ospJoin "Session4" "Assignment") filename
      else abspath fs filename

/-- The fixed default body text used when the model supplies too few
email parameters (lines 288 and 326). -/
def defaultBody (cfg : Config) : String :=
  "Here is the ASCII calculation result for \x27" ++ cfg.user_input ++ "\x27"

/-! ## Argument mapper

Models lines 255 to 328: the per-tool construction of the named-argument
dictionary from the positional parameters. An error value models a
Python exception escaping this block (only int() can raise here). -/

/-- The argument mapper. Follows the if/elif chain of the source; an
unknown tool name leaves the mapping empty. -/
def mapArguments (cfg : Config) (fs : Fs) (func_name : String)
    (params : List String) : Except String Arguments :=
  if func_name = "ascii_exp_sum" then
    Except.ok [("input_string", ArgVal.str cfg.user_input)]
  else if func_name = "open_paint" then
    Except.ok []
  else if func_name = "draw_rectangle" then
    if 4 ≤ params.length then
      match pyInt (params.getD 0 "") with
      | none => Except.error ("invalid literal for int: " ++ params.getD 0 "")
      | some x1 =>
        match pyInt (params.getD 1 "") with
        | none => Except.error ("invalid literal for int: " ++ params.getD 1 "")
        | some y1 =>
          match pyInt (params.getD 2 "") with
          | none => Except.error ("invalid literal for int: " ++ params.getD 2 "")
          | some x2 =>
            match pyInt (params.getD 3 "") with
            | none => Except.error ("invalid literal for int: " ++ params.getD 3 "")
            | some y2 =>
              Except.ok [("x1", ArgVal.int x1), ("y1", ArgVal.int y1),
                         ("x2", ArgVal.int x2), ("y2", ArgVal.int y2)]
    else Except.ok []
  else if func_name = "add_text_in_paint" then
    match params with
    | [] => Except.ok []
    | p :: _ => Except.ok [("text", ArgVal.str p)]
  else if func_name = "save_paint_file" then
    match params with
    | [] => Except.ok []
    | p :: _ => Except.ok [("filename", ArgVal.str p)]
  else if func_name = "email_ascii_image" then
    if 3 ≤ params.length then
      Except.ok [("to_address", ArgVal.str cfg.recipient_email),
                 ("subject", ArgVal.str (params.getD 1 "")),
                 ("body", ArgVal.str (params.getD 2 ""))]
    else
      Except.ok [("to_address", ArgVal.str cfg.recipient_email),
                 ("subject", ArgVal.str "ASCII Calculation Result"),
                 ("body", ArgVal.str (defaultBody cfg))]
  else if func_name = "send_email_with_attachment" then
    if 4 ≤ params.length then
      Except.ok [("to_address", ArgVal.str cfg.recipient_email),
                 ("subject", ArgVal.str (params.getD 1 "")),
                 ("body", ArgVal.str (params.getD 2 "")),
                 ("attachment_path",
                  ArgVal.str (resolveAttachment fs (params.getD 3 "")))]
    else
      Except.ok [("to_address", ArgVal.str cfg.recipient_email),
                 ("subject", ArgVal.str "ASCII Calculation Result"),
                 ("body", ArgVal.str (defaultBody cfg)),
                 ("attachment_path", ArgVal.str "paint_visualization.png")]
  else
    Except.ok []

/-- The mapped to_address value of a call, when the mapping succeeds and
carries one. -/
def mappedToAddress (cfg : Config) (fs : Fs) (func_name : String)
    (params : List String) : Option ArgVal :=
  match mapArguments cfg fs func_name params with
  | Except.ok args => args.lookup "to_address"
  | Except.error _ => none

/-- The tool names the mapper knows (the if/elif chain of lines 258
to 290). -/
def knownToolNames : List String :=
  ["ascii_exp_sum", "open_paint", "draw_rectangle", "add_text_in_paint",
   "save_paint_file", "email_ascii_image", "send_email_with_attachment"]

/-! ## Iteration loop

Models the main interaction loop (lines 236 to 375). The externals are
oracles: the model backend supplies one response per loop pass (or
raises, covering the generation timeout), and the tool provider supplies
one normalised result text per invocation (or raises; per section 4.3 of
the spec the invoker both performs the call and normalises its result,
so a failure of either is one failed invocation). -/

/-- The iteration cap (line 43 of the source). -/
def max_iterations : Nat := 10

/-- External events of one loop pass: the model generation outcome and,
when a tool call is dispatched, the tool invocation outcome. -/
structure TurnInput where
  gen : Except Unit String
  tool : Except Unit String

/-- One successfully invoked tool call: its name, the named arguments it
was invoked with, and the normalised result text. -/
structure ToolCall where
  name : String
  args : Arguments
  result : String
deriving DecidableEq, Repr

/-- The default ToolCall used with List.getD. -/
def noCall : ToolCall := ⟨"", [], ""⟩

/-- Why the loop stopped: a FINAL_ANSWER line, an unrecognised line, an
exception caught by the per-iteration handler (reporting the 1-based
iteration number, line 368), or the iteration cap (lines 373 to 375). -/
inductive StopReason where
  | finalAnswer (text : String)
  | malformed (text : String)
  | turnError (reportedIteration : Nat)
  | maxIter
deriving DecidableEq, Repr

/-- The transcript entry appended after a successful invocation
(line 345 of the source). -/
def transcriptEntry (iteration : Nat) (func_name result_text : String) : String :=
  "In iteration " ++ toString (iteration + 1) ++ ", " ++ func_name ++
    " returned: " ++ result_text

/-- Everything observable about a finished session: the final iteration
counter, the transcript, the successful invocations in order, how many
generation requests were issued, the state (iteration counter and
transcript) at the top of each loop pass, and why the loop stopped. -/
structure RunResult where
  iterations : Nat
  transcript : List String
  calls : List ToolCall
  genRequests : Nat
  trace : List (Nat × List String)
  stop : StopReason
deriving Repr

/-- The body of one loop pass after a response was obtained: parse the
response, map the arguments, invoke the tool. Either the pass advances
with a recorded call, or the loop halts (break in the source). -/
inductive StepOut where
  | halt (stop : StopReason)
  | advance (call : ToolCall)
deriving DecidableEq, Repr

/-- Dispatch one turn (the try block, lines 244 to 369): a generation
failure, an argument-mapping failure or a tool failure break out with
the error report; a FINAL_ANSWER or unrecognised response breaks out
with the corresponding terminal state; otherwise the call is recorded. -/
def dispatchTurn (cfg : Config) (fs : Fs) (t : TurnInput) (iteration : Nat) :
    StepOut :=
  match t.gen with
  | Except.error _ => StepOut.halt (StopReason.turnError (iteration + 1))
  | Except.ok raw =>
    match parseDirective (pyStrip raw) with
    | Directive.call func_name params =>
      match mapArguments cfg fs func_name params with
      | Except.error _ => StepOut.halt (StopReason.turnError (iteration + 1))
      | Except.ok args =>
        match t.tool with
        | Except.error _ => StepOut.halt (StopReason.turnError (iteration + 1))
        | Except.ok result_text => StepOut.advance ⟨func_name, args, result_text⟩
    | Directive.final text => StepOut.halt (StopReason.finalAnswer text)
    | Directive.malformed text => StepOut.halt (StopReason.malformed text)

/-- The while loop (line 237), with fuel for structural recursion: the
session always starts with fuel equal to max_iterations, so fuel runs
out exactly when the loop condition fails. Each pass checks the loop
condition, records the pass-top state, issues one generation request and
dispatches; an advancing pass appends the transcript entry and the call
and increments the iteration counter (line 371). -/
def runAux (cfg : Config) (fs : Fs) (turns : Nat → TurnInput) :
    Nat → Nat → List String → List ToolCall → Nat →
    List (Nat × List String) → RunResult
  | 0, iteration, tr, cs, gr, trace =>
    ⟨iteration, tr, cs, gr, trace, StopReason.maxIter⟩
  | fuel + 1, iteration, tr, cs, gr, trace =>
    if iteration < max_iterations then
      match dispatchTurn cfg fs (turns iteration) iteration with
      | StepOut.halt stop =>
        ⟨iteration, tr, cs, gr + 1, trace ++ [(iteration, tr)], stop⟩
      | StepOut.advance c =>
        runAux cfg fs turns fuel (iteration + 1)
          (tr ++ [transcriptEntry iteration c.name c.result])
          (cs ++ [c]) (gr + 1) (trace ++ [(iteration, tr)])
    else ⟨iteration, tr, cs, gr, trace, StopReason.maxIter⟩

/-- A whole session: the loop from iteration 0 with empty transcript. -/
def runSession (cfg : Config) (fs : Fs) (turns : Nat → TurnInput) : RunResult :=
  runAux cfg fs turns max_iterations 0 [] [] 0 []

/-! ## Concrete session data used by the witnesses -/

/-- A concrete session configuration. -/
def cfg0 : Config := ⟨"Hello World", "a@b.com"⟩

/-- A filesystem oracle on which no path exists. -/
def fs0 : Fs := ⟨fun _ => false, "/home/agent", rfl⟩

/-- A turn whose model response calls the zero-argument paint tool and
whose invocation succeeds. -/
def turnCall : TurnInput := ⟨Except.ok "FUNCTION_CALL: open_paint", Except.ok "ok"⟩

/-- Oracle: one successful call turn, then an unrecognised response. -/
def turnsC4 : Nat → TurnInput := fun j =>
  if j = 0 then turnCall else ⟨Except.ok "I am thinking...", Except.ok "ok"⟩

/-- Oracle: one successful call turn, then a final answer. -/
def turnsC6 : Nat → TurnInput := fun j =>
  if j = 0 then turnCall else ⟨Except.ok "FINAL_ANSWER: done", Except.ok "ok"⟩

/-- Oracle: one successful call turn, then a rectangle call with a
non-numeric coordinate. -/
def turnsC9 : Nat → TurnInput := fun j =>
  if j = 0 then turnCall
  else ⟨Except.ok "FUNCTION_CALL: draw_rectangle|12|abc|30|40", Except.ok "ok"⟩

/-- Oracle: a call to a tool name the mapper does not know. -/
def turnsC10 : Nat → TurnInput := fun _ =>
  ⟨Except.ok "FUNCTION_CALL: mystery_tool|x", Except.ok "rejected by provider"⟩

/-- Oracle: every turn is the same successful call turn, so the session
runs into the iteration cap. -/
def turnsCap : Nat → TurnInput := fun _ => turnCall

/-! ## Basic string lemmas -/

lemma data_append (s t : String) : (s ++ t).data = s.data ++ t.data := by
  cases s; cases t; rfl

lemma string_eq_iff_data (s t : String) : s = t ↔ s.data = t.data := by
  constructor
  · intro h; rw [h]
  · intro h
    cases s; cases t
    exact congrArg String.mk h

lemma append_ne_empty_left (s t : String) (h : s ≠ "") : s ++ t ≠ "" := by
  intro he
  apply h
  rw [string_eq_iff_data] at he ⊢
  rw [data_append] at he
  rcases List.append_eq_nil.mp he with ⟨h1, _⟩
  exact h1

lemma append_ne_empty_right (s t : String) (h : t ≠ "") : s ++ t ≠ "" := by
  intro he
  apply h
  rw [string_eq_iff_data] at he ⊢
  rw [data_append] at he
  rcases List.append_eq_nil.mp he with ⟨_, h2⟩
  exact h2

lemma chListStarts_append_self : ∀ (p l : List Char),
    chListStarts p (p ++ l) = true := by
  intro p l
  induction p with
  | nil => simp [chListStarts]
  | cons c cs ih => simp [chListStarts, ih]

lemma ne_empty_of_starts (s m : String) (hm : m.data ≠ [])
    (h : strStarts s m = true) : s ≠ "" := by
  intro he
  subst he
  unfold strStarts at h
  cases hd : m.data with
  | nil => exact hm hd
  | cons c cs => rw [hd] at h; simp [chListStarts] at h

lemma splitPipe_ne_nil : ∀ l : List Char, splitPipe l ≠ [] := by
  intro l
  induction l with
  | nil => simp [splitPipe]
  | cons c cs ih =>
    simp only [splitPipe]
    by_cases hc : c = '|'
    · simp [hc]
    · simp only [hc, if_false]
      cases h : splitPipe cs with
      | nil => simp
      | cons f rest => simp

lemma afterFirstColon_no_colon_append : ∀ (p l : List Char),
    (∀ c ∈ p, c ≠ ':') → afterFirstColon (p ++ ':' :: l) = l := by
  intro p l hp
  induction p with
  | nil => simp [afterFirstColon]
  | cons c cs ih =>
    have hc : c ≠ ':' := hp c (by simp)
    simp only [List.cons_append, afterFirstColon, hc, if_false]
    exact ih (fun d hd => hp d (by simp [hd]))

/-- A line starting with the FINAL_ANSWER marker does not start with the
FUNCTION_CALL marker (they differ at the second character). -/
lemma final_not_function (s : String)
    (h : strStarts s "FINAL_ANSWER:" = true) :
    strStarts s "FUNCTION_CALL:" = false := by
  unfold strStarts at h ⊢
  cases hd : s.data with
  | nil => rw [hd] at h; simp [chListStarts] at h
  | cons a t =>
    cases t with
    | nil =>
      rw [hd] at h
      simp [chListStarts] at h
    | cons b t2 =>
      rw [hd] at h
      simp only [show ("FINAL_ANSWER:").data =
        ['F', 'I', 'N', 'A', 'L', '_', 'A', 'N', 'S', 'W', 'E', 'R', ':']
        from rfl, chListStarts, Bool.and_eq_true, decide_eq_true_eq] at h
      have hb : 'I' = b := h.2.1
      simp only [show ("FUNCTION_CALL:").data =
        ['F', 'U', 'N', 'C', 'T', 'I', 'O', 'N', '_', 'C', 'A', 'L', 'L', ':']
        from rfl, chListStarts, Bool.and_eq_false_iff]
      subst hb
      simp

/-! ## Parser lemmas -/

/-- On a line that is the FUNCTION_CALL marker followed by a payload,
the parser splits the payload on pipes, strips the fields, and takes
head and tail. -/
lemma parseDirective_function_call (rest : String) :
    parseDirective ("FUNCTION_CALL:" ++ rest) =
      match (splitPipe rest.data).map (fun p => String.mk (pyStripList p)) with
      | [] => Directive.malformed ("FUNCTION_CALL:" ++ rest)
      | func_name :: params => Directive.call func_name params := by
  have hdata : ("FUNCTION_CALL:" ++ rest).data =
      "FUNCTION_CALL:".data ++ rest.data := data_append _ _
  have hstarts : strStarts ("FUNCTION_CALL:" ++ rest) "FUNCTION_CALL:" = true := by
    unfold strStarts
    rw [hdata]
    exact chListStarts_append_self _ _
  have hafter : afterFirstColon (("FUNCTION_CALL:" ++ rest).data) = rest.data := by
    rw [hdata]
    have : ("FUNCTION_CALL:").data =
        ['F', 'U', 'N', 'C', 'T', 'I', 'O', 'N', '_', 'C', 'A', 'L', 'L'] ++
          [':'] := rfl
    rw [this, List.append_assoc, List.singleton_append]
    exact afterFirstColon_no_colon_append _ _ (by decide)
  unfold parseDirective
  rw [hstarts, if_pos rfl, hafter]

/-- A response starting with the FINAL_ANSWER marker parses as final. -/
lemma parseDirective_final (s : String)
    (h : strStarts s "FINAL_ANSWER:" = true) :
    parseDirective s = Directive.final s := by
  unfold parseDirective
  rw [final_not_function s h, h]
  simp

/-- A response starting with neither marker parses as malformed. -/
lemma parseDirective_malformed (s : String)
    (h1 : strStarts s "FUNCTION_CALL:" = false)
    (h2 : strStarts s "FINAL_ANSWER:" = false) :
    parseDirective s = Directive.malformed s := by
  unfold parseDirective
  rw [h1, h2]
  simp

/-! ## Argument mapper branch lemmas -/

lemma mapArguments_ascii (cfg : Config) (fs : Fs) (params : List String) :
    mapArguments cfg fs "ascii_exp_sum" params =
      Except.ok [("input_string", ArgVal.str cfg.user_input)] := by
  unfold mapArguments
  rw [if_pos rfl]

lemma mapArguments_open (cfg : Config) (fs : Fs) (params : List String) :
    mapArguments cfg fs "open_paint" params = Except.ok [] := by
  unfold mapArguments
  rw [if_neg (by decide), if_pos rfl]

lemma mapArguments_draw_ok (cfg : Config) (fs : Fs) (params : List String)
    (a b c d : Int) (hlen : 4 ≤ params.length)
    (h0 : pyInt (params.getD 0 "") = some a)
    (h1 : pyInt (params.getD 1 "") = some b)
    (h2 : pyInt (params.getD 2 "") = some c)
    (h3 : pyInt (params.getD 3 "") = some d) :
    mapArguments cfg fs "draw_rectangle" params =
      Except.ok [("x1", ArgVal.int a), ("y1", ArgVal.int b),
                 ("x2", ArgVal.int c), ("y2", ArgVal.int d)] := by
  unfold mapArguments
  rw [if_neg (by decide), if_neg (by decide), if_pos rfl, if_pos hlen,
    h0, h1, h2, h3]

lemma mapArguments_draw_error (cfg : Config) (fs : Fs) (params : List String)
    (hlen : 4 ≤ params.length)
    (hbad : pyInt (params.getD 0 "") = none ∨ pyInt (params.getD 1 "") = none ∨
      pyInt (params.getD 2 "") = none ∨ pyInt (params.getD 3 "") = none) :
    ∃ msg, mapArguments cfg fs "draw_rectangle" params = Except.error msg := by
  unfold mapArguments
  rw [if_neg (by decide), if_neg (by decide), if_pos rfl, if_pos hlen]
  cases h0 : pyInt (params.getD 0 "") with
  | none => exact ⟨_, rfl⟩
  | some a =>
    cases h1 : pyInt (params.getD 1 "") with
    | none => exact ⟨_, rfl⟩
    | some b =>
      cases h2 : pyInt (params.getD 2 "") with
      | none => exact ⟨_, rfl⟩
      | some c =>
        cases h3 : pyInt (params.getD 3 "") with
        | none => exact ⟨_, rfl⟩
        | some d =>
          exfalso
          rcases hbad with h | h | h | h
          · rw [h0] at h; exact Option.noConfusion h
          · rw [h1] at h; exact Option.noConfusion h
          · rw [h2] at h; exact Option.noConfusion h
          · rw [h3] at h; exact Option.noConfusion h

lemma mapArguments_draw_short (cfg : Config) (fs : Fs) (params : List String)
    (hlen : params.length < 4) :
    mapArguments cfg fs "draw_rectangle" params = Except.ok [] := by
  unfold mapArguments
  rw [if_neg (by decide), if_neg (by decide), if_pos rfl, if_neg (by omega)]

lemma mapArguments_text_cons (cfg : Config) (fs : Fs) (p : String)
    (ps : List String) :
    mapArguments cfg fs "add_text_in_paint" (p :: ps) =
      Except.ok [("text", ArgVal.str p)] := by
  unfold mapArguments
  rw [if_neg (by decide), if_neg (by decide), if_neg (by decide), if_pos rfl]

lemma mapArguments_text_nil (cfg : Config) (fs : Fs) :
    mapArguments cfg fs "add_text_in_paint" [] = Except.ok [] := by
  unfold mapArguments
  rw [if_neg (by decide), if_neg (by decide), if_neg (by decide), if_pos rfl]

lemma mapArguments_save_cons (cfg : Config) (fs : Fs) (p : String)
    (ps : List String) :
    mapArguments cfg fs "save_paint_file" (p :: ps) =
      Except.ok [("filename", ArgVal.str p)] := by
  unfold mapArguments
  rw [if_neg (by decide), if_neg (by decide), if_neg (by decide),
    if_neg (by decide), if_pos rfl]

lemma mapArguments_save_nil (cfg : Config) (fs : Fs) :
    mapArguments cfg fs "save_paint_file" [] = Except.ok [] := by
  unfold mapArguments
  rw [if_neg (by decide), if_neg (by decide), if_neg (by decide),
    if_neg (by decide), if_pos rfl]

lemma mapArguments_email_long (cfg : Config) (fs : Fs) (params : List String)
    (hlen : 3 ≤ params.length) :
    mapArguments cfg fs "email_ascii_image" params =
      Except.ok [("to_address", ArgVal.str cfg.recipient_email),
                 ("subject", ArgVal.str (params.getD 1 "")),
                 ("body", ArgVal.str (params.getD 2 ""))] := by
  unfold mapArguments
  rw [if_neg (by decide), if_neg (by decide), if_neg (by decide),
    if_neg (by decide), if_neg (by decide), if_pos rfl, if_pos hlen]

lemma mapArguments_email_short (cfg : Config) (fs : Fs) (params : List String)
    (hlen : params.length < 3) :
    mapArguments cfg fs "email_ascii_image" params =
      Except.ok [("to_address", ArgVal.str cfg.recipient_email),
                 ("subject", ArgVal.str "ASCII Calculation Result"),
                 ("body", ArgVal.str (defaultBody cfg))] := by
  unfold mapArguments
  rw [if_neg (by decide), if_neg (by decide), if_neg (by decide),
    if_neg (by decide), if_neg (by decide), if_pos rfl, if_neg (by omega)]

lemma mapArguments_send_long (cfg : Config) (fs : Fs) (params : List String)
    (hlen : 4 ≤ params.length) :
    mapArguments cfg fs "send_email_with_attachment" params =
      Except.ok [("to_address", ArgVal.str cfg.recipient_email),
                 ("subject", ArgVal.str (params.getD 1 "")),
                 ("body", ArgVal.str (params.getD 2 "")),
                 ("attachment_path",
                  ArgVal.str (resolveAttachment fs (params.getD 3 "")))] := by
  unfold mapArguments
  rw [if_neg (by decide), if_neg (by decide), if_neg (by decide),
    if_neg (by decide), if_neg (by decide), if_neg (by decide), if_pos rfl,
    if_pos hlen]

lemma mapArguments_send_short (cfg : Config) (fs : Fs) (params : List String)
    (hlen : params.length < 4) :
    mapArguments cfg fs "send_email_with_attachment" params =
      Except.ok [("to_address", ArgVal.str cfg.recipient_email),
                 ("subject", ArgVal.str "ASCII Calculation Result"),
                 ("body", ArgVal.str (defaultBody cfg)),
                 ("attachment_path", ArgVal.str "paint_visualization.png")] := by
  unfold mapArguments
  rw [if_neg (by decide), if_neg (by decide), if_neg (by decide),
    if_neg (by decide), if_neg (by decide), if_neg (by decide), if_pos rfl,
    if_neg (by omega)]

lemma mapArguments_unknown (cfg : Config) (fs : Fs) (func_name : String)
    (params : List String) (h : func_name ∉ knownToolNames) :
    mapArguments cfg fs func_name params = Except.ok [] := by
  simp only [knownToolNames, List.mem_cons, List.not_mem_nil, or_false,
    not_or] at h
  obtain ⟨h1, h2, h3, h4, h5, h6, h7⟩ := h
  unfold mapArguments
  rw [if_neg h1, if_neg h2, if_neg h3, if_neg h4, if_neg h5, if_neg h6,
    if_neg h7]

/-! ## Attachment path resolution lemmas -/

lemma ospJoin_ne_empty (a b : String) (ha : a ≠ "") :
    ospJoin a b ≠ "" := by
  unfold ospJoin
  by_cases h : strStarts b "/" = true
  · rw [if_pos h]
    exact ne_empty_of_starts b "/" (by decide) h
  · rw [if_neg h]
    exact append_ne_empty_left _ _ (append_ne_empty_left _ _ ha)

lemma abspath_ne_empty (fs : Fs) (p : String) : abspath fs p ≠ "" := by
  unfold abspath
  by_cases h : strStarts p "/" = true
  · rw [if_pos h]
    exact ne_empty_of_starts p "/" (by decide) h
  · rw [if_neg h]
    exact append_ne_empty_left _ _ (append_ne_empty_right _ _ (by decide))

/-- The resolved attachment path is never the empty string: an existing
path cannot be empty (os.path.exists rejects the empty path), the probed
candidate directories are non-empty prefixes, and the absolute-path
fallback is non-empty. -/
lemma resolveAttachment_ne_empty (fs : Fs) (filename : String) :
    resolveAttachment fs filename ≠ "" := by
  unfold resolveAttachment
  by_cases h0 : fs.pathExists filename = true
  · rw [if_pos h0]
    intro he
    subst he
    rw [fs.pathExists_empty] at h0
    exact Bool.false_ne_true h0
  · rw [if_neg h0]
    by_cases h1 : fs.pathExists (ospJoin "Assignment" filename) = true
    · rw [if_pos h1]
      exact ospJoin_ne_empty _ _ (by decide)
    · rw [if_neg h1]
      by_cases h2 : fs.pathExists
          (ospJoin (ospJoin "Session4" "Assignment") filename) = true
      · rw [if_pos h2]
        exact ospJoin_ne_empty _ _ (ospJoin_ne_empty _ _ (by decide))
      · rw [if_neg h2]
        exact abspath_ne_empty fs filename

/-! ## Loop unfolding lemmas -/

lemma runAux_zero (cfg : Config) (fs : Fs) (turns : Nat → TurnInput)
    (iteration : Nat) (tr : List String) (cs : List ToolCall) (gr : Nat)
    (trace : List (Nat × List String)) :
    runAux cfg fs turns 0 iteration tr cs gr trace =
      ⟨iteration, tr, cs, gr, trace, StopReason.maxIter⟩ := rfl

lemma runAux_succ_stop (cfg : Config) (fs : Fs) (turns : Nat → TurnInput)
    (fuel iteration : Nat) (tr : List String) (cs : List ToolCall) (gr : Nat)
    (trace : List (Nat × List String)) (h : ¬ iteration < max_iterations) :
    runAux cfg fs turns (fuel + 1) iteration tr cs gr trace =
      ⟨iteration, tr, cs, gr, trace, StopReason.maxIter⟩ := by
  unfold runAux
  rw [if_neg h]

lemma runAux_succ_halt (cfg : Config) (fs : Fs) (turns : Nat → TurnInput)
    (fuel iteration : Nat) (tr : List String) (cs : List ToolCall) (gr : Nat)
    (trace : List (Nat × List String)) (s : StopReason)
    (h : iteration < max_iterations)
    (hd : dispatchTurn cfg fs (turns iteration) iteration = StepOut.halt s) :
    runAux cfg fs turns (fuel + 1) iteration tr cs gr trace =
      ⟨iteration, tr, cs, gr + 1, trace ++ [(iteration, tr)], s⟩ := by
  unfold runAux
  rw [if_pos h, hd]

lemma runAux_succ_advance (cfg : Config) (fs : Fs) (turns : Nat → TurnInput)
    (fuel iteration : Nat) (tr : List String) (cs : List ToolCall) (gr : Nat)
    (trace : List (Nat × List String)) (c : ToolCall)
    (h : iteration < max_iterations)
    (hd : dispatchTurn cfg fs (turns iteration) iteration = StepOut.advance c) :
    runAux cfg fs turns (fuel + 1) iteration tr cs gr trace =
      runAux cfg fs turns fuel (iteration + 1)
        (tr ++ [transcriptEntry iteration c.name c.result]) (cs ++ [c])
        (gr + 1) (trace ++ [(iteration, tr)]) := by
  conv_lhs => unfold runAux
  rw [if_pos h, hd]

/-- A halting dispatch never halts with the max-iterations notice: only
the loop condition produces that stop state. -/
lemma dispatchTurn_halt_ne_maxIter (cfg : Config) (fs : Fs) (t : TurnInput)
    (iteration : Nat) (s : StopReason)
    (h : dispatchTurn cfg fs t iteration = StepOut.halt s) :
    s ≠ StopReason.maxIter := by
  obtain ⟨gen, tool⟩ := t
  cases gen with
  | error e =>
    simp only [dispatchTurn] at h
    cases h
    simp
  | ok raw =>
    cases hp : parseDirective (pyStrip raw) with
    | call func_name params =>
      cases hm : mapArguments cfg fs func_name params with
      | error msg =>
        simp only [dispatchTurn, hp, hm] at h
        cases h
        simp
      | ok args =>
        cases tool with
        | error e2 =>
          simp only [dispatchTurn, hp, hm] at h
          cases h
          simp
        | ok result_text =>
          simp only [dispatchTurn, hp, hm] at h
          cases h
    | final text =>
      simp only [dispatchTurn, hp] at h
      cases h
      simp
    | malformed text =>
      simp only [dispatchTurn, hp] at h
      cases h
      simp

/-! ## Counting invariant of the loop

With fuel matching the remaining iteration budget, the loop never drives
the iteration counter past the cap, it stops with the max-iterations
notice exactly when the counter reaches the cap, and it issues one
generation request per pass entered. -/

lemma runAux_counts (cfg : Config) (fs : Fs) (turns : Nat → TurnInput) :
    ∀ (fuel iteration : Nat) (tr : List String) (cs : List ToolCall)
      (gr : Nat) (trace : List (Nat × List String)),
      iteration + fuel = max_iterations →
      iteration ≤ (runAux cfg fs turns fuel iteration tr cs gr trace).iterations ∧
      (runAux cfg fs turns fuel iteration tr cs gr trace).iterations ≤
        max_iterations ∧
      ((runAux cfg fs turns fuel iteration tr cs gr trace).stop =
          StopReason.maxIter ↔
        (runAux cfg fs turns fuel iteration tr cs gr trace).iterations =
          max_iterations) ∧
      (runAux cfg fs turns fuel iteration tr cs gr trace).genRequests =
        gr + ((runAux cfg fs turns fuel iteration tr cs gr trace).iterations -
          iteration) +
          (if (runAux cfg fs turns fuel iteration tr cs gr trace).stop =
              StopReason.maxIter then 0 else 1) := by
  intro fuel
  induction fuel with
  | zero =>
    intro iteration tr cs gr trace hfuel
    rw [runAux_zero]
    dsimp only
    refine ⟨le_refl _, by omega, ⟨fun _ => by omega, fun _ => rfl⟩, ?_⟩
    rw [if_pos rfl]
    omega
  | succ n ih =>
    intro iteration tr cs gr trace hfuel
    have hit : iteration < max_iterations := by omega
    cases hd : dispatchTurn cfg fs (turns iteration) iteration with
    | halt s =>
      rw [runAux_succ_halt cfg fs turns n iteration tr cs gr trace s hit hd]
      have hs := dispatchTurn_halt_ne_maxIter cfg fs (turns iteration)
        iteration s hd
      dsimp only
      refine ⟨le_refl _, le_of_lt hit,
        ⟨fun h => absurd h hs, fun h => absurd h (by omega)⟩, ?_⟩
      rw [if_neg hs]
      omega
    | advance c =>
      rw [runAux_succ_advance cfg fs turns n iteration tr cs gr trace c hit hd]
      have := ih (iteration + 1)
        (tr ++ [transcriptEntry iteration c.name c.result]) (cs ++ [c])
        (gr + 1) (trace ++ [(iteration, tr)]) (by omega)
      obtain ⟨ha, hb, hc, hgr⟩ := this
      refine ⟨by omega, hb, hc, ?_⟩
      rw [hgr]
      omega

/-! ## Structural invariant of the loop

The loop only ever appends: the final transcript, call list and pass
trace extend the initial ones; the new transcript entries and recorded
calls correspond one to one and in order; and the pass trace records,
for each pass entered, the iteration counter and the transcript prefix
present at the top of that pass. -/

lemma runAux_shape (cfg : Config) (fs : Fs) (turns : Nat → TurnInput) :
    ∀ (fuel iteration : Nat) (tr : List String) (cs : List ToolCall)
      (gr : Nat) (trace : List (Nat × List String)),
      ∃ dtr dcs dtrace,
        (runAux cfg fs turns fuel iteration tr cs gr trace).transcript =
          tr ++ dtr ∧
        (runAux cfg fs turns fuel iteration tr cs gr trace).calls =
          cs ++ dcs ∧
        (runAux cfg fs turns fuel iteration tr cs gr trace).trace =
          trace ++ dtrace ∧
        dtr.length = dcs.length ∧
        iteration + dtr.length =
          (runAux cfg fs turns fuel iteration tr cs gr trace).iterations ∧
        gr + dtrace.length =
          (runAux cfg fs turns fuel iteration tr cs gr trace).genRequests ∧
        (∀ j, j < dtr.length →
          dtr.getD j "" = transcriptEntry (iteration + j)
            ((dcs.getD j noCall).name) ((dcs.getD j noCall).result)) ∧
        (∀ j, j < dtrace.length →
          dtrace.getD j (0, []) = (iteration + j, tr ++ dtr.take j)) := by
  intro fuel
  induction fuel with
  | zero =>
    intro iteration tr cs gr trace
    refine ⟨[], [], [], ?_, ?_, ?_, rfl, ?_, ?_, ?_, ?_⟩ <;>
      simp [runAux_zero]
  | succ n ih =>
    intro iteration tr cs gr trace
    by_cases hit : iteration < max_iterations
    · cases hd : dispatchTurn cfg fs (turns iteration) iteration with
      | halt s =>
        rw [runAux_succ_halt cfg fs turns n iteration tr cs gr trace s hit hd]
        refine ⟨[], [], [(iteration, tr)], by simp, by simp, by simp, rfl,
          by simp, by simp, by simp, ?_⟩
        intro j hj
        simp only [List.length_singleton] at hj
        have hj0 : j = 0 := by omega
        subst hj0
        simp
      | advance c =>
        rw [runAux_succ_advance cfg fs turns n iteration tr cs gr trace c
          hit hd]
        obtain ⟨dtr, dcs, dtrace, h1, h2, h3, h4, h5, h6, h7, h8⟩ :=
          ih (iteration + 1)
            (tr ++ [transcriptEntry iteration c.name c.result]) (cs ++ [c])
            (gr + 1) (trace ++ [(iteration, tr)])
        refine ⟨transcriptEntry iteration c.name c.result :: dtr, c :: dcs,
          (iteration, tr) :: dtrace, ?_, ?_, ?_, ?_, ?_, ?_, ?_, ?_⟩
        · rw [h1]; simp
        · rw [h2]; simp
        · rw [h3]; simp
        · simp [h4]
        · simp only [List.length_cons]
          omega
        · simp only [List.length_cons]
          omega
        · intro j hj
          cases j with
          | zero => simp
          | succ j =>
            simp only [List.getD_cons_succ]
            simp only [List.length_cons] at hj
            have := h7 j (by omega)
            rw [this]
            have harith : iteration + 1 + j = iteration + (j + 1) := by omega
            rw [harith]
        · intro j hj
          cases j with
          | zero => simp
          | succ j =>
            simp only [List.getD_cons_succ]
            simp only [List.length_cons] at hj
            have := h8 j (by omega)
            rw [this]
            have harith : iteration + 1 + j = iteration + (j + 1) := by omega
            rw [harith]
            simp
    · rw [runAux_succ_stop cfg fs turns n iteration tr cs gr trace hit]
      refine ⟨[], [], [], ?_, ?_, ?_, rfl, ?_, ?_, ?_, ?_⟩ <;> simp

/-! ## Reachability of a loop pass -/

/-- If the first k turns all advance, the session run is the run from
iteration k with a transcript and call list of length k each. -/
lemma runSession_reach (cfg : Config) (fs : Fs) (turns : Nat → TurnInput) :
    ∀ k, k ≤ max_iterations →
      (∀ j, j < k →
        ∃ c, dispatchTurn cfg fs (turns j) j = StepOut.advance c) →
      ∃ tr cs trace, tr.length = k ∧ cs.length = k ∧
        runSession cfg fs turns =
          runAux cfg fs turns (max_iterations - k) k tr cs k trace := by
  intro k
  induction k with
  | zero =>
    intro _ _
    exact ⟨[], [], [], rfl, rfl, by rw [Nat.sub_zero]; rfl⟩
  | succ k ih =>
    intro hk hadv
    obtain ⟨tr, cs, trace, htr, hcs, heq⟩ :=
      ih (by omega) (fun j hj => hadv j (by omega))
    obtain ⟨c, hc⟩ := hadv k (by omega)
    have hfuel : max_iterations - k = (max_iterations - (k + 1)) + 1 := by
      omega
    rw [hfuel, runAux_succ_advance cfg fs turns _ k tr cs k trace c
      (by omega) hc] at heq
    exact ⟨tr ++ [transcriptEntry k c.name c.result], cs ++ [c],
      trace ++ [(k, tr)], by simp [htr], by simp [hcs], heq⟩

/-- If the first k turns advance and turn k halts with stop state s, the
session stops with s at iteration k, having invoked exactly k tools,
recorded exactly k transcript entries, and issued exactly k + 1
generation requests. -/
lemma runSession_halt_at (cfg : Config) (fs : Fs) (turns : Nat → TurnInput)
    (k : Nat) (s : StopReason) (hk : k < max_iterations)
    (hadv : ∀ j, j < k →
      ∃ c, dispatchTurn cfg fs (turns j) j = StepOut.advance c)
    (hhalt : dispatchTurn cfg fs (turns k) k = StepOut.halt s) :
    (runSession cfg fs turns).stop = s ∧
    (runSession cfg fs turns).iterations = k ∧
    (runSession cfg fs turns).calls.length = k ∧
    (runSession cfg fs turns).transcript.length = k ∧
    (runSession cfg fs turns).genRequests = k + 1 := by
  obtain ⟨tr, cs, trace, htr, hcs, heq⟩ :=
    runSession_reach cfg fs turns k (le_of_lt hk) hadv
  have hfuel : max_iterations - k = (max_iterations - (k + 1)) + 1 := by omega
  rw [hfuel, runAux_succ_halt cfg fs turns _ k tr cs k trace s hk hhalt]
    at heq
  rw [heq]
  exact ⟨rfl, rfl, hcs, htr, rfl⟩

/-- If the first k turns advance and turn k advances with call c, then c
is attempted and recorded as invocation number k of the session. -/
lemma runSession_advance_at (cfg : Config) (fs : Fs) (turns : Nat → TurnInput)
    (k : Nat) (c : ToolCall) (hk : k < max_iterations)
    (hadv : ∀ j, j < k →
      ∃ c2, dispatchTurn cfg fs (turns j) j = StepOut.advance c2)
    (hc : dispatchTurn cfg fs (turns k) k = StepOut.advance c) :
    k < (runSession cfg fs turns).calls.length ∧
    (runSession cfg fs turns).calls.getD k noCall = c := by
  obtain ⟨tr, cs, trace, htr, hcs, heq⟩ :=
    runSession_reach cfg fs turns k (le_of_lt hk) hadv
  have hfuel : max_iterations - k = (max_iterations - (k + 1)) + 1 := by omega
  rw [hfuel, runAux_succ_advance cfg fs turns _ k tr cs k trace c hk hc]
    at heq
  obtain ⟨dtr, dcs, dtrace, h1, h2, h3, h4, h5, h6, h7, h8⟩ :=
    runAux_shape cfg fs turns (max_iterations - (k + 1)) (k + 1)
      (tr ++ [transcriptEntry k c.name c.result]) (cs ++ [c]) (k + 1)
      (trace ++ [(k, tr)])
  rw [heq, h2]
  have hlen : (cs ++ [c]).length = k + 1 := by simp [hcs]
  constructor
  · rw [List.length_append, hlen]
    omega
  · rw [List.getD_append _ _ _ _ (by omega)]
    rw [List.getD_append_right _ _ _ _ (by omega)]
    rw [hcs]
    simp

/-! ## Dispatch shapes for specific turn kinds -/

lemma runSession_def (cfg : Config) (fs : Fs) (turns : Nat → TurnInput) :
    runSession cfg fs turns =
      runAux cfg fs turns max_iterations 0 [] [] 0 [] := rfl

lemma dispatchTurn_of_malformed (cfg : Config) (fs : Fs) (t : TurnInput)
    (iteration : Nat) (raw : String) (hg : t.gen = Except.ok raw)
    (h1 : strStarts (pyStrip raw) "FUNCTION_CALL:" = false)
    (h2 : strStarts (pyStrip raw) "FINAL_ANSWER:" = false) :
    dispatchTurn cfg fs t iteration =
      StepOut.halt (StopReason.malformed (pyStrip raw)) := by
  simp only [dispatchTurn, hg, parseDirective_malformed (pyStrip raw) h1 h2]

lemma dispatchTurn_of_final (cfg : Config) (fs : Fs) (t : TurnInput)
    (iteration : Nat) (raw : String) (hg : t.gen = Except.ok raw)
    (hfin : strStarts (pyStrip raw) "FINAL_ANSWER:" = true) :
    dispatchTurn cfg fs t iteration =
      StepOut.halt (StopReason.finalAnswer (pyStrip raw)) := by
  simp only [dispatchTurn, hg, parseDirective_final (pyStrip raw) hfin]

lemma dispatchTurn_of_call_ok (cfg : Config) (fs : Fs) (t : TurnInput)
    (iteration : Nat) (raw func_name : String) (params : List String)
    (args : Arguments) (res : String) (hg : t.gen = Except.ok raw)
    (hp : parseDirective (pyStrip raw) = Directive.call func_name params)
    (hm : mapArguments cfg fs func_name params = Except.ok args)
    (ht : t.tool = Except.ok res) :
    dispatchTurn cfg fs t iteration = StepOut.advance ⟨func_name, args, res⟩ := by
  simp only [dispatchTurn, hg, hp, hm, ht]

lemma dispatchTurn_of_call_maperr (cfg : Config) (fs : Fs) (t : TurnInput)
    (iteration : Nat) (raw func_name : String) (params : List String)
    (msg : String) (hg : t.gen = Except.ok raw)
    (hp : parseDirective (pyStrip raw) = Directive.call func_name params)
    (hm : mapArguments cfg fs func_name params = Except.error msg) :
    dispatchTurn cfg fs t iteration =
      StepOut.halt (StopReason.turnError (iteration + 1)) := by
  simp only [dispatchTurn, hg, hp, hm]

/-- The to_address of an email_ascii_image mapping is always the
configured recipient. -/
lemma mappedToAddress_email (cfg : Config) (fs : Fs) (params : List String) :
    mappedToAddress cfg fs "email_ascii_image" params =
      some (ArgVal.str cfg.recipient_email) := by
  unfold mappedToAddress
  by_cases h : 3 ≤ params.length
  · rw [mapArguments_email_long cfg fs params h]
    simp [List.lookup]
  · rw [mapArguments_email_short cfg fs params (by omega)]
    simp [List.lookup]

/-- The to_address of a send_email_with_attachment mapping is always the
configured recipient. -/
lemma mappedToAddress_send (cfg : Config) (fs : Fs) (params : List String) :
    mappedToAddress cfg fs "send_email_with_attachment" params =
      some (ArgVal.str cfg.recipient_email) := by
  unfold mappedToAddress
  by_cases h : 4 ≤ params.length
  · rw [mapArguments_send_long cfg fs params h]
    simp [List.lookup]
  · rw [mapArguments_send_short cfg fs params (by omega)]
    simp [List.lookup]

/-! ## Claim theorems -/

/-- Claim C1: for every parsed call to an email-sending tool, whatever
recipient the model supplies in the positional parameters, the mapped
named arguments carry to_address equal to the configured session
recipient, collected once before the loop; hence any two parameter
lists, in particular two differing only in the model-supplied recipient,
map to the same to_address. -/
theorem C1_to_address_fixed (cfg : Config) (fs : Fs)
    (params params2 : List String) :
    mappedToAddress cfg fs "email_ascii_image" params =
      some (ArgVal.str cfg.recipient_email) ∧
    mappedToAddress cfg fs "send_email_with_attachment" params =
      some (ArgVal.str cfg.recipient_email) ∧
    mappedToAddress cfg fs "email_ascii_image" params =
      mappedToAddress cfg fs "email_ascii_image" params2 ∧
    mappedToAddress cfg fs "send_email_with_attachment" params =
      mappedToAddress cfg fs "send_email_with_attachment" params2 := by
  refine ⟨mappedToAddress_email cfg fs params,
    mappedToAddress_send cfg fs params, ?_, ?_⟩
  · rw [mappedToAddress_email cfg fs params,
      mappedToAddress_email cfg fs params2]
  · rw [mappedToAddress_send cfg fs params,
      mappedToAddress_send cfg fs params2]

/-- Claim C2: the session performs at most max_iterations (10) dispatch
cycles; the iteration counter is incremented once per accumulated call
turn, never exceeds the cap, and when it reaches the cap the session
stops with the max-iterations notice after exactly max_iterations
generation requests, issuing no further one. -/
theorem C2_iteration_cap (cfg : Config) (fs : Fs) (turns : Nat → TurnInput) :
    max_iterations = 10 ∧
    (runSession cfg fs turns).genRequests ≤ max_iterations ∧
    (runSession cfg fs turns).iterations ≤ max_iterations ∧
    (runSession cfg fs turns).calls.length =
      (runSession cfg fs turns).iterations ∧
    ((runSession cfg fs turns).iterations = max_iterations →
      (runSession cfg fs turns).stop = StopReason.maxIter ∧
      (runSession cfg fs turns).genRequests = max_iterations) ∧
    ((runSession cfg fs turns).stop = StopReason.maxIter →
      (runSession cfg fs turns).iterations = max_iterations) := by
  rw [runSession_def]
  obtain ⟨ha, hb, hc, hgr⟩ :=
    runAux_counts cfg fs turns max_iterations 0 [] [] 0 [] (by omega)
  obtain ⟨dtr, dcs, dtrace, h1, h2, h3, h4, h5, h6, h7, h8⟩ :=
    runAux_shape cfg fs turns max_iterations 0 [] [] 0 []
  refine ⟨rfl, ?_, hb, ?_, ?_, hc.mp⟩
  · by_cases hstop : (runAux cfg fs turns max_iterations 0 [] [] 0 []).stop =
        StopReason.maxIter
    · rw [if_pos hstop] at hgr
      omega
    · rw [if_neg hstop] at hgr
      have : (runAux cfg fs turns max_iterations 0 [] [] 0 []).iterations ≠
          max_iterations := fun h => hstop (hc.mpr h)
      omega
  · rw [h2, h1] at *
    simp only [List.nil_append] at *
    omega
  · intro hiter
    refine ⟨hc.mpr hiter, ?_⟩
    rw [if_pos (hc.mpr hiter)] at hgr
    omega

/-- Claim C2 witness: a session whose model always issues a valid call
runs into the cap with exactly max_iterations generation requests. -/
theorem C2_iteration_cap_witness :
    (runSession cfg0 fs0 turnsCap).stop = StopReason.maxIter ∧
    (runSession cfg0 fs0 turnsCap).genRequests = max_iterations := by
  have h := C2_iteration_cap cfg0 fs0 turnsCap
  exact h.2.2.2.2.1 (by decide)

/-- Claim C3 counterexample: the claim includes ascii_exp_sum among the
single-textual-argument tools bound to the first positional parameter,
but the code binds the session input string instead: with session input
Hello World and first parameter X, the mapping carries Hello World. -/
theorem C3_counterexample :
    mapArguments cfg0 fs0 "ascii_exp_sum" ["X"] =
      Except.ok [("input_string", ArgVal.str "Hello World")] ∧
    mapArguments cfg0 fs0 "ascii_exp_sum" ["X"] ≠
      Except.ok [("input_string", ArgVal.str "X")] := by
  constructor
  · rfl
  · intro h
    have h2 : ([("input_string", ArgVal.str "Hello World")] : Arguments) =
        [("input_string", ArgVal.str "X")] := by
      have h1 : mapArguments cfg0 fs0 "ascii_exp_sum" ["X"] =
          Except.ok [("input_string", ArgVal.str "Hello World")] := rfl
      rw [h1] at h
      exact Except.ok.inj h
    simp at h2

/-- Claim C3 (amended): add_text_in_paint and save_paint_file bind the
first positional parameter as-is to their single named argument (text
and filename respectively); ascii_exp_sum ignores the positional
parameters and binds the session input string to input_string. -/
theorem C3_single_text_arg (cfg : Config) (fs : Fs) (p : String)
    (ps : List String) :
    mapArguments cfg fs "add_text_in_paint" (p :: ps) =
      Except.ok [("text", ArgVal.str p)] ∧
    mapArguments cfg fs "save_paint_file" (p :: ps) =
      Except.ok [("filename", ArgVal.str p)] ∧
    mapArguments cfg fs "ascii_exp_sum" (p :: ps) =
      Except.ok [("input_string", ArgVal.str cfg.user_input)] :=
  ⟨mapArguments_text_cons cfg fs p ps, mapArguments_save_cons cfg fs p ps,
   mapArguments_ascii cfg fs (p :: ps)⟩

/-- Claim C4: if a reached turn yields a model response that starts with
neither the FUNCTION_CALL marker nor the FINAL_ANSWER marker (the empty
string included), the session terminates immediately with the malformed
report: no tool is invoked for that turn or any later turn, and no
further generation request is issued (parsing is not retried). -/
theorem C4_malformed_aborts (cfg : Config) (fs : Fs)
    (turns : Nat → TurnInput) (k : Nat) (raw : String)
    (hk : k < max_iterations)
    (hadv : ∀ j, j < k →
      ∃ c, dispatchTurn cfg fs (turns j) j = StepOut.advance c)
    (hraw : (turns k).gen = Except.ok raw)
    (h1 : strStarts (pyStrip raw) "FUNCTION_CALL:" = false)
    (h2 : strStarts (pyStrip raw) "FINAL_ANSWER:" = false) :
    (runSession cfg fs turns).stop = StopReason.malformed (pyStrip raw) ∧
    (runSession cfg fs turns).iterations = k ∧
    (runSession cfg fs turns).calls.length = k ∧
    (runSession cfg fs turns).genRequests = k + 1 := by
  have hd := dispatchTurn_of_malformed cfg fs (turns k) k raw hraw h1 h2
  obtain ⟨ha, hb, hc, _, he⟩ :=
    runSession_halt_at cfg fs turns k _ hk hadv hd
  exact ⟨ha, hb, hc, he⟩

/-- Claim C4 witness: after one valid call turn, the unrecognised
response of the spec scenario aborts the session with exactly the one
prior invocation and two generation requests. -/
theorem C4_malformed_aborts_witness :
    (runSession cfg0 fs0 turnsC4).stop =
      StopReason.malformed "I am thinking..." ∧
    (runSession cfg0 fs0 turnsC4).iterations = 1 ∧
    (runSession cfg0 fs0 turnsC4).calls.length = 1 ∧
    (runSession cfg0 fs0 turnsC4).genRequests = 2 := by
  have h := C4_malformed_aborts cfg0 fs0 turnsC4 1 "I am thinking..."
    (by decide)
    (by
      intro j hj
      have hj0 : j = 0 := by omega
      subst hj0
      exact ⟨⟨"open_paint", [], "ok"⟩, by decide⟩)
    rfl (by decide) (by decide)
  exact h

/-- Claim C5: a FUNCTION_CALL line is split once on the first colon; the
payload is split on pipes into trimmed fields; the first field is the
function name and the remaining fields, in order, are the positional
parameters, so the total field count equals the pipe-delimited field
count of the payload exactly; re-parsing the same line yields the same
directive; a call with zero pipe-delimited parameters is valid. -/
theorem C5_parser_function_call (rest : String) :
    (∃ func_name params,
      parseDirective ("FUNCTION_CALL:" ++ rest) =
        Directive.call func_name params ∧
      func_name :: params =
        (splitPipe rest.data).map (fun p => String.mk (pyStripList p)) ∧
      params.length + 1 = (splitPipe rest.data).length ∧
      parseDirective ("FUNCTION_CALL:" ++ rest) =
        parseDirective ("FUNCTION_CALL:" ++ rest)) ∧
    parseDirective "FUNCTION_CALL: open_paint" =
      Directive.call "open_paint" [] := by
  constructor
  · have h := parseDirective_function_call rest
    cases hsp : (splitPipe rest.data).map (fun p => String.mk (pyStripList p))
      with
    | nil =>
      exact absurd (List.map_eq_nil_iff.mp hsp) (splitPipe_ne_nil rest.data)
    | cons f ps =>
      rw [hsp] at h
      refine ⟨f, ps, h, rfl, ?_, rfl⟩
      have hlen : ((splitPipe rest.data).map
          (fun p => String.mk (pyStripList p))).length =
          (splitPipe rest.data).length := List.length_map _ _
      rw [hsp] at hlen
      simpa using hlen
  · rfl

/-- Claim C6: when a reached turn yields a response starting with the
FINAL_ANSWER marker, the session moves to the finished state in that
same turn: no further tool invocation and no further generation request
happens for the rest of the session. -/
theorem C6_final_answer_stops (cfg : Config) (fs : Fs)
    (turns : Nat → TurnInput) (k : Nat) (raw : String)
    (hk : k < max_iterations)
    (hadv : ∀ j, j < k →
      ∃ c, dispatchTurn cfg fs (turns j) j = StepOut.advance c)
    (hraw : (turns k).gen = Except.ok raw)
    (hfin : strStarts (pyStrip raw) "FINAL_ANSWER:" = true) :
    (runSession cfg fs turns).stop = StopReason.finalAnswer (pyStrip raw) ∧
    (runSession cfg fs turns).iterations = k ∧
    (runSession cfg fs turns).calls.length = k ∧
    (runSession cfg fs turns).genRequests = k + 1 := by
  have hd := dispatchTurn_of_final cfg fs (turns k) k raw hraw hfin
  obtain ⟨ha, hb, hc, _, he⟩ :=
    runSession_halt_at cfg fs turns k _ hk hadv hd
  exact ⟨ha, hb, hc, he⟩

/-- Claim C6 witness: after one valid call turn, a FINAL_ANSWER response
finishes the session with one invocation and two generation requests. -/
theorem C6_final_answer_stops_witness :
    (runSession cfg0 fs0 turnsC6).stop =
      StopReason.finalAnswer "FINAL_ANSWER: done" ∧
    (runSession cfg0 fs0 turnsC6).iterations = 1 ∧
    (runSession cfg0 fs0 turnsC6).calls.length = 1 ∧
    (runSession cfg0 fs0 turnsC6).genRequests = 2 := by
  have h := C6_final_answer_stops cfg0 fs0 turnsC6 1 "FINAL_ANSWER: done"
    (by decide)
    (by
      intro j hj
      have hj0 : j = 0 := by omega
      subst hj0
      exact ⟨⟨"open_paint", [], "ok"⟩, by decide⟩)
    rfl (by decide)
  exact h

/-- Claim C7: the transcript length always equals the number of
successfully invoked tool calls and equals the iteration counter at the
end; the recorded pass-top states show that at the top of each loop pass
the iteration counter equals the transcript length and that the
transcript at each pass top is the prefix of the final transcript of
that length (entries are only appended, never removed or reordered); and
transcript entry j is exactly the entry generated from invocation j. -/
theorem C7_transcript_invariant (cfg : Config) (fs : Fs)
    (turns : Nat → TurnInput) :
    (runSession cfg fs turns).transcript.length =
      (runSession cfg fs turns).calls.length ∧
    (runSession cfg fs turns).calls.length =
      (runSession cfg fs turns).iterations ∧
    (∀ j, j < (runSession cfg fs turns).trace.length →
      (runSession cfg fs turns).trace.getD j (0, []) =
        (j, (runSession cfg fs turns).transcript.take j) ∧
      ((runSession cfg fs turns).transcript.take j).length = j) ∧
    (∀ j, j < (runSession cfg fs turns).calls.length →
      (runSession cfg fs turns).transcript.getD j "" =
        transcriptEntry j
          (((runSession cfg fs turns).calls.getD j noCall).name)
          (((runSession cfg fs turns).calls.getD j noCall).result)) := by
  rw [runSession_def]
  obtain ⟨ha, hb, hc, hgr⟩ :=
    runAux_counts cfg fs turns max_iterations 0 [] [] 0 [] (by omega)
  obtain ⟨dtr, dcs, dtrace, h1, h2, h3, h4, h5, h6, h7, h8⟩ :=
    runAux_shape cfg fs turns max_iterations 0 [] [] 0 []
  simp only [List.nil_append] at h1 h2 h3 h8
  have hjle : ∀ j, j < dtrace.length → j ≤ dtr.length := by
    intro j hj
    by_cases hstop : (runAux cfg fs turns max_iterations 0 [] [] 0 []).stop =
        StopReason.maxIter
    · rw [if_pos hstop] at hgr
      omega
    · rw [if_neg hstop] at hgr
      omega
  refine ⟨?_, ?_, ?_, ?_⟩
  · rw [h1, h2, h4]
  · rw [h2]
    omega
  · intro j hj
    rw [h3] at hj ⊢
    rw [h1]
    have := h8 j hj
    simp only [Nat.zero_add] at this
    refine ⟨this, ?_⟩
    rw [List.length_take]
    have := hjle j hj
    omega
  · intro j hj
    rw [h2] at hj ⊢
    rw [h1]
    have := h7 j (by omega)
    simpa using this

/-- Claim C7 witness: in a concrete capped session, pass-top state 0 and
transcript entry 0 have the stated shapes. -/
theorem C7_transcript_invariant_witness :
    (runSession cfg0 fs0 turnsCap).trace.getD 0 (0, []) =
      (0, (runSession cfg0 fs0 turnsCap).transcript.take 0) ∧
    (runSession cfg0 fs0 turnsCap).transcript.getD 0 "" =
      transcriptEntry 0
        (((runSession cfg0 fs0 turnsCap).calls.getD 0 noCall).name)
        (((runSession cfg0 fs0 turnsCap).calls.getD 0 noCall).result) := by
  have h := C7_transcript_invariant cfg0 fs0 turnsCap
  exact ⟨(h.2.2.1 0 (by decide)).1, h.2.2.2 0 (by decide)⟩

/-- Claim C8: for every parsed call to send_email_with_attachment, the
mapping always succeeds with a non-empty attachment_path. With at least
four parameters the fourth is resolved through the ordered probe
(current directory, Assignment, Session4/Assignment) with the absolute
path as fallback, and that resolution is total and never yields the
empty string; with fewer than four parameters the fixed default path is
used. -/
theorem C8_attachment_path (cfg : Config) (fs : Fs) (p0 p1 p2 p3 : String)
    (rest : List String) (q0 q1 q2 : String) :
    (mapArguments cfg fs "send_email_with_attachment"
        (p0 :: p1 :: p2 :: p3 :: rest) =
      Except.ok [("to_address", ArgVal.str cfg.recipient_email),
                 ("subject", ArgVal.str p1), ("body", ArgVal.str p2),
                 ("attachment_path",
                  ArgVal.str (resolveAttachment fs p3))] ∧
     resolveAttachment fs p3 ≠ "") ∧
    (mapArguments cfg fs "send_email_with_attachment" [] =
      Except.ok [("to_address", ArgVal.str cfg.recipient_email),
                 ("subject", ArgVal.str "ASCII Calculation Result"),
                 ("body", ArgVal.str (defaultBody cfg)),
                 ("attachment_path", ArgVal.str "paint_visualization.png")] ∧
     mapArguments cfg fs "send_email_with_attachment" [q0] =
      Except.ok [("to_address", ArgVal.str cfg.recipient_email),
                 ("subject", ArgVal.str "ASCII Calculation Result"),
                 ("body", ArgVal.str (defaultBody cfg)),
                 ("attachment_path", ArgVal.str "paint_visualization.png")] ∧
     mapArguments cfg fs "send_email_with_attachment" [q0, q1] =
      Except.ok [("to_address", ArgVal.str cfg.recipient_email),
                 ("subject", ArgVal.str "ASCII Calculation Result"),
                 ("body", ArgVal.str (defaultBody cfg)),
                 ("attachment_path", ArgVal.str "paint_visualization.png")] ∧
     mapArguments cfg fs "send_email_with_attachment" [q0, q1, q2] =
      Except.ok [("to_address", ArgVal.str cfg.recipient_email),
                 ("subject", ArgVal.str "ASCII Calculation Result"),
                 ("body", ArgVal.str (defaultBody cfg)),
                 ("attachment_path", ArgVal.str "paint_visualization.png")]) ∧
    ("paint_visualization.png" : String) ≠ "" := by
  refine ⟨⟨?_, resolveAttachment_ne_empty fs p3⟩, ⟨?_, ?_, ?_, ?_⟩, by decide⟩
  · have h := mapArguments_send_long cfg fs (p0 :: p1 :: p2 :: p3 :: rest)
      (by simp)
    simpa using h
  · exact mapArguments_send_short cfg fs [] (by simp)
  · exact mapArguments_send_short cfg fs [q0] (by simp)
  · exact mapArguments_send_short cfg fs [q0, q1] (by simp)
  · exact mapArguments_send_short cfg fs [q0, q1, q2] (by simp)

/-- Claim C9: draw_rectangle with at least four parameters parses the
first four as integers into x1, y1, x2, y2 in order; if any of the four
fails integer parsing, the turn is fatal: the error propagates, is
reported with the 1-based iteration number, is not retried, and no tool
is invoked for that turn. -/
theorem C9_draw_rectangle_parsing (cfg : Config) (fs : Fs) :
    (∀ (params : List String) (a b c d : Int), 4 ≤ params.length →
      pyInt (params.getD 0 "") = some a →
      pyInt (params.getD 1 "") = some b →
      pyInt (params.getD 2 "") = some c →
      pyInt (params.getD 3 "") = some d →
      mapArguments cfg fs "draw_rectangle" params =
        Except.ok [("x1", ArgVal.int a), ("y1", ArgVal.int b),
                   ("x2", ArgVal.int c), ("y2", ArgVal.int d)]) ∧
    (∀ (turns : Nat → TurnInput) (k : Nat) (raw : String)
      (params : List String), k < max_iterations →
      (∀ j, j < k →
        ∃ c2, dispatchTurn cfg fs (turns j) j = StepOut.advance c2) →
      (turns k).gen = Except.ok raw →
      parseDirective (pyStrip raw) = Directive.call "draw_rectangle" params →
      4 ≤ params.length →
      (pyInt (params.getD 0 "") = none ∨ pyInt (params.getD 1 "") = none ∨
        pyInt (params.getD 2 "") = none ∨
        pyInt (params.getD 3 "") = none) →
      (runSession cfg fs turns).stop = StopReason.turnError (k + 1) ∧
      (runSession cfg fs turns).iterations = k ∧
      (runSession cfg fs turns).calls.length = k ∧
      (runSession cfg fs turns).genRequests = k + 1) := by
  constructor
  · intro params a b c d hlen h0 h1 h2 h3
    exact mapArguments_draw_ok cfg fs params a b c d hlen h0 h1 h2 h3
  · intro turns k raw params hk hadv hraw hp hlen hbad
    obtain ⟨msg, hm⟩ := mapArguments_draw_error cfg fs params hlen hbad
    have hd := dispatchTurn_of_call_maperr cfg fs (turns k) k raw
      "draw_rectangle" params msg hraw hp hm
    obtain ⟨ha, hb, hc, _, he⟩ :=
      runSession_halt_at cfg fs turns k _ hk hadv hd
    exact ⟨ha, hb, hc, he⟩

/-- Claim C9 witness: a rectangle call with a non-numeric second
coordinate aborts turn 2 of a concrete session, reported as iteration 2,
with only the first invocation recorded. -/
theorem C9_draw_rectangle_parsing_witness :
    (runSession cfg0 fs0 turnsC9).stop = StopReason.turnError 2 ∧
    (runSession cfg0 fs0 turnsC9).iterations = 1 ∧
    (runSession cfg0 fs0 turnsC9).calls.length = 1 ∧
    (runSession cfg0 fs0 turnsC9).genRequests = 2 := by
  have h := (C9_draw_rectangle_parsing cfg0 fs0).2 turnsC9 1
    "FUNCTION_CALL: draw_rectangle|12|abc|30|40" ["12", "abc", "30", "40"]
    (by decide)
    (by
      intro j hj
      have hj0 : j = 0 := by omega
      subst hj0
      exact ⟨⟨"open_paint", [], "ok"⟩, by decide⟩)
    rfl (by decide) (by decide)
    (Or.inr (Or.inl (by decide)))
  exact h

/-- Claim C10: whenever the mapper produces an empty mapping — unknown
tool name, draw_rectangle with fewer than four parameters, or
add_text_in_paint or save_paint_file with zero parameters — the remote
invocation is still attempted with that empty named-argument mapping
rather than being rejected locally: the call is dispatched and, when the
provider answers, recorded with empty arguments. -/
theorem C10_empty_mapping_invoked (cfg : Config) (fs : Fs) :
    (∀ (func_name : String) (params : List String),
      func_name ∉ knownToolNames →
      mapArguments cfg fs func_name params = Except.ok []) ∧
    (∀ q0 q1 q2 : String,
      mapArguments cfg fs "draw_rectangle" [] = Except.ok [] ∧
      mapArguments cfg fs "draw_rectangle" [q0] = Except.ok [] ∧
      mapArguments cfg fs "draw_rectangle" [q0, q1] = Except.ok [] ∧
      mapArguments cfg fs "draw_rectangle" [q0, q1, q2] = Except.ok [] ∧
      mapArguments cfg fs "add_text_in_paint" [] = Except.ok [] ∧
      mapArguments cfg fs "save_paint_file" [] = Except.ok []) ∧
    (∀ (turns : Nat → TurnInput) (k : Nat) (raw func_name : String)
      (params : List String) (res : String), k < max_iterations →
      (∀ j, j < k →
        ∃ c2, dispatchTurn cfg fs (turns j) j = StepOut.advance c2) →
      (turns k).gen = Except.ok raw →
      parseDirective (pyStrip raw) = Directive.call func_name params →
      mapArguments cfg fs func_name params = Except.ok [] →
      (turns k).tool = Except.ok res →
      k < (runSession cfg fs turns).calls.length ∧
      (runSession cfg fs turns).calls.getD k noCall =
        ⟨func_name, [], res⟩) := by
  refine ⟨?_, ?_, ?_⟩
  · intro func_name params h
    exact mapArguments_unknown cfg fs func_name params h
  · intro q0 q1 q2
    exact ⟨mapArguments_draw_short cfg fs [] (by simp),
      mapArguments_draw_short cfg fs [q0] (by simp),
      mapArguments_draw_short cfg fs [q0, q1] (by simp),
      mapArguments_draw_short cfg fs [q0, q1, q2] (by simp),
      mapArguments_text_nil cfg fs, mapArguments_save_nil cfg fs⟩
  · intro turns k raw func_name params res hk hadv hraw hp hm ht
    have hd := dispatchTurn_of_call_ok cfg fs (turns k) k raw func_name
      params [] res hraw hp hm ht
    exact runSession_advance_at cfg fs turns k _ hk hadv hd

/-- Claim C10 witness: a call to an unknown tool is invoked with empty
arguments and the provider answer is recorded as invocation 0. -/
theorem C10_empty_mapping_invoked_witness :
    mapArguments cfg0 fs0 "mystery_tool" ["x"] = Except.ok [] ∧
    0 < (runSession cfg0 fs0 turnsC10).calls.length ∧
    (runSession cfg0 fs0 turnsC10).calls.getD 0 noCall =
      ⟨"mystery_tool", [], "rejected by provider"⟩ := by
  have h := C10_empty_mapping_invoked cfg0 fs0
  refine ⟨h.1 "mystery_tool" ["x"] (by decide), ?_⟩
  have h3 := h.2.2 turnsC10 0 "FUNCTION_CALL: mystery_tool|x" "mystery_tool"
    ["x"] "rejected by provider" (by decide)
    (by intro j hj; omega)
    rfl (by decide) rfl rfl
  exact h3

end PaintAgent
